import Mathlib

/-
Shallow embedding of the maze generator (Go, single file) and proofs about
its grid model, room placement, growing-tree maze carving, and connector
detection.  Go machine integers are modelled as Int (no overflow is reachable
at the sizes involved), Go slices as List, and Go slice-index panics as
Option results (none = panic).  Randomness is modelled by universally
quantified draw values or oracle streams.
-/

namespace Maze

/-- Point models the Go Point struct wrapping image.Point: an integer pair. -/
structure Point where
  x : Int
  y : Int
  deriving DecidableEq, Repr

/-- Point.Add models Go Point.Add: componentwise addition. -/
def Point.add (p o : Point) : Point := ⟨p.x + o.x, p.y + o.y⟩

instance : Add Point := ⟨Point.add⟩

/-- Point.Mul models Go Point.Mul: scalar multiplication. -/
def Point.mul (p : Point) (i : Int) : Point := ⟨p.x * i, p.y * i⟩

/-- Reverse models the Go direction.Reverse method: multiplication by -1. -/
def Reverse (d : Point) : Point := d.mul (-1)

/-- The four direction constants Up, Right, Down, Left from the source. -/
def DirUp : Point := ⟨0, -1⟩

/-- Right direction constant. -/
def DirRight : Point := ⟨1, 0⟩

/-- Down direction constant. -/
def DirDown : Point := ⟨0, 1⟩

/-- Left direction constant. -/
def DirLeft : Point := ⟨-1, 0⟩

/-- Dirs models the Go slice Dirs = [Up, Right, Down, Left]. -/
def Dirs : List Point := [DirUp, DirRight, DirDown, DirLeft]

/-- Material models the Go Material enum: Rock = 0 (zero value), Carved = 1. -/
inductive Material where
  | Rock
  | Carved
  deriving DecidableEq, Repr

export Material (Rock Carved)

/-- Region models the Go Region type, an int. -/
abbrev Region := Int

/-- Rect models Go image.Rectangle: min and max corner points. -/
structure Rect where
  min : Point
  max : Point
  deriving DecidableEq, Repr

/-- mkRect models Go image.Rect, which swaps each axis so that min is at most max. -/
def mkRect (x0 y0 x1 y1 : Int) : Rect :=
  ⟨⟨min x0 x1, min y0 y1⟩, ⟨max x0 x1, max y0 y1⟩⟩

/-- rEmpty models Go Rectangle.Empty. -/
def rEmpty (r : Rect) : Bool :=
  decide (r.max.x ≤ r.min.x) || decide (r.max.y ≤ r.min.y)

/-- pIn models Go Point.In: membership of a point in a rectangle. -/
def pIn (p : Point) (r : Rect) : Bool :=
  decide (r.min.x ≤ p.x) && decide (p.x < r.max.x) &&
    decide (r.min.y ≤ p.y) && decide (p.y < r.max.y)

/-- rIn models Go Rectangle.In: an empty rectangle is in every rectangle. -/
def rIn (r s : Rect) : Bool :=
  if rEmpty r then true
  else
    decide (s.min.x ≤ r.min.x) && decide (r.max.x ≤ s.max.x) &&
      decide (s.min.y ≤ r.min.y) && decide (r.max.y ≤ s.max.y)

/-- rOverlaps models Go Rectangle.Overlaps. -/
def rOverlaps (r s : Rect) : Bool :=
  !rEmpty r && !rEmpty s &&
    decide (r.min.x < s.max.x) && decide (s.min.x < r.max.x) &&
      decide (r.min.y < s.max.y) && decide (s.min.y < r.max.y)

/-- Grid models the Go Grid struct: material slice, size, region slice, region counter. -/
structure Grid where
  g : List Material
  Size : Point
  regions : List Region
  regCount : Region
  deriving DecidableEq, Repr

/-- Linear index used by every Grid accessor in the source: y times width plus x. -/
def Grid.idx (gr : Grid) (p : Point) : Int := p.y * gr.Size.x + p.x

/-- Grid.At models the Go At method; none models the slice-index panic. -/
def Grid.At (gr : Grid) (p : Point) : Option Material :=
  if 0 ≤ gr.idx p then gr.g[(gr.idx p).toNat]? else none

/-- Grid.RegionAt models the Go RegionAt method; none models the panic. -/
def Grid.RegionAt (gr : Grid) (p : Point) : Option Region :=
  if 0 ≤ gr.idx p then gr.regions[(gr.idx p).toNat]? else none

/-- Grid.SetMaterial models the Go SetMaterial method; none models the panic. -/
def Grid.SetMaterial (gr : Grid) (p : Point) (m : Material) : Option Grid :=
  if 0 ≤ gr.idx p ∧ (gr.idx p).toNat < gr.g.length then
    some { gr with g := gr.g.set (gr.idx p).toNat m }
  else none

/-- Grid.SetRegion models the Go SetRegion method; none models the panic. -/
def Grid.SetRegion (gr : Grid) (p : Point) (r : Region) : Option Grid :=
  if 0 ≤ gr.idx p ∧ (gr.idx p).toNat < gr.regions.length then
    some { gr with regions := gr.regions.set (gr.idx p).toNat r }
  else none

/-- Total variant of Grid.At used inside the algorithms, where every access is
in bounds and therefore agrees with Grid.At. -/
def Grid.atD (gr : Grid) (p : Point) : Material := (gr.At p).getD Rock

/-- Total variant of Grid.RegionAt. -/
def Grid.regionAtD (gr : Grid) (p : Point) : Region := (gr.RegionAt p).getD 0

/-- Total variant of Grid.SetMaterial. -/
def Grid.setMatD (gr : Grid) (p : Point) (m : Material) : Grid :=
  { gr with g := gr.g.set (gr.idx p).toNat m }

/-- Total variant of Grid.SetRegion. -/
def Grid.setRegD (gr : Grid) (p : Point) (r : Region) : Grid :=
  { gr with regions := gr.regions.set (gr.idx p).toNat r }

/-- Grid.NewRegion models the Go NewRegion method: increment the counter and
return it, together with the updated grid. -/
def Grid.NewRegion (gr : Grid) : Region × Grid :=
  (gr.regCount + 1, { gr with regCount := gr.regCount + 1 })

/-- Grid.BoundsR models the Go Bounds method: image.Rect(0, 0, w, h). -/
def Grid.BoundsR (gr : Grid) : Rect := mkRect 0 0 gr.Size.x gr.Size.y

/-- intRange lo hi models the Go loop for v := lo; v < hi; v++ as the list of
visited values in order. -/
def intRange (lo hi : Int) : List Int :=
  (List.range (hi - lo).toNat).map (fun (i : Nat) => lo + (i : Int))

/-- intRange2 lo hi models the Go loop for v := lo; v < hi; v += 2 as the list
of visited values in order. -/
def intRange2 (lo hi : Int) : List Int :=
  (List.range (((hi - lo).toNat + 1) / 2)).map (fun (i : Nat) => lo + 2 * (i : Int))

/-- Grid.RegionsList models the Go Regions method: for i = 0; i < regCount;
i++ append i. -/
def Grid.RegionsList (gr : Grid) : List Region := intRange 0 gr.regCount

/-- newGrid models the Go newGrid constructor: all cells Rock, all regions 0,
counter 0. -/
def newGrid (size : Point) : Grid :=
  ⟨List.replicate (size.x * size.y).toNat Rock, size,
    List.replicate (size.x * size.y).toNat 0, 0⟩

/-- A point is inside the grid bounds. For well-formed (nonnegative) sizes this
agrees with pIn at Grid.BoundsR. -/
def inBoundsP (gr : Grid) (p : Point) : Prop :=
  0 ≤ p.x ∧ p.x < gr.Size.x ∧ 0 ≤ p.y ∧ p.y < gr.Size.y

instance (gr : Grid) (p : Point) : Decidable (inBoundsP gr p) := by
  unfold inBoundsP; infer_instance

/-- Well-formedness of a grid: nonnegative size and slices of length width
times height, as produced by newGrid. -/
def WF (gr : Grid) : Prop :=
  0 ≤ gr.Size.x ∧ 0 ≤ gr.Size.y ∧
    gr.g.length = (gr.Size.x * gr.Size.y).toNat ∧
    gr.regions.length = (gr.Size.x * gr.Size.y).toNat

instance (gr : Grid) : Decidable (WF gr) := by
  unfold WF; infer_instance

/-- The in-bounds cell that an out-of-range point silently aliases to when its
linear index happens to fall inside the backing slice. -/
def wrapPoint (gr : Grid) (p : Point) : Point :=
  ⟨(gr.idx p) % gr.Size.x, (gr.idx p) / gr.Size.x⟩

/-- canCarve models the Go canCarve: the point three steps out is inside the
grid bounds and the point two steps out is still Rock.  Total variant: every
call made by grow has the cell and hence the two-step point in bounds. -/
def canCarve (gr : Grid) (c d : Point) : Bool :=
  pIn (((c + d) + d) + d) gr.BoundsR && decide (gr.atD ((c + d) + d) = Rock)

/-- Checked variant of canCarve in which the material lookup may panic; Go
short-circuits the conjunction, so an out-of-bounds beyond point yields false
without touching the slice. -/
def canCarveChecked (gr : Grid) (c d : Point) : Option Bool :=
  if pIn (((c + d) + d) + d) gr.BoundsR then
    (gr.At ((c + d) + d)).map (fun m => decide (m = Rock))
  else some false

/-- RoomParams models the Go RoomParams struct. -/
structure RoomParams where
  Min : Point
  Max : Point
  deriving DecidableEq, Repr

/-- ROOM_PARAMS models the fixed room parameters of the source. -/
def ROOM_PARAMS : RoomParams := ⟨⟨5, 5⟩, ⟨15, 15⟩⟩

/-- ROOM_TRIES models the fixed attempt budget of the source. -/
def ROOM_TRIES : Nat := 10

/-- One try of createRooms draws four random integers; rand.Intn(n) yields a
value in the interval from 0 to n-1. -/
structure Draw where
  ry : Nat
  rx : Nat
  rh : Nat
  rw : Nat
  deriving DecidableEq, Repr

/-- The zero image.Rectangle that make with length 1 seeds into the room list. -/
def zeroRect : Rect := ⟨⟨0, 0⟩, ⟨0, 0⟩⟩

/-- drawnWidth models the source expression rand.Intn(rp.Max.X/2)*2 + rp.Min.X
with the random value given explicitly; Go integer division truncates. -/
def drawnWidth (rp : RoomParams) (d : Draw) : Int := 2 * (d.rw : Int) + rp.Min.x

/-- drawnHeight models rand.Intn(rp.Max.Y/2)*2 + rp.Min.Y likewise. -/
def drawnHeight (rp : RoomParams) (d : Draw) : Int := 2 * (d.rh : Int) + rp.Min.y

/-- tryRoom models the rectangle formed from one set of draws; note that the
source stores the first draw in y and the second in x. -/
def tryRoom (rp : RoomParams) (d : Draw) : Rect :=
  let y := 2 * (d.ry : Int) + 1
  let x := 2 * (d.rx : Int) + 1
  mkRect x y (x + drawnWidth rp d) (y + drawnHeight rp d)

/-- roomStep models one iteration of the TryingRooms loop: reject the candidate
if it is not inside the clip or overlaps an accepted room, else append it. -/
def roomStep (clip : Rect) (rp : RoomParams) (rooms : List Rect) (d : Draw) : List Rect :=
  let room := tryRoom rp d
  if rIn room clip then
    if rooms.all (fun old => !rOverlaps room old) then rooms ++ [room]
    else rooms
  else rooms

/-- createRooms models the Go createRooms: the accepted list starts with the
single zero rectangle produced by make with length 1, then the trials run. -/
def createRooms (clip : Rect) (rp : RoomParams) (draws : List Draw) : List Rect :=
  draws.foldl (roomStep clip rp) [zeroRect]

/-- State of the grow loop: the grid, the active cell slice, and the cursor
into the random oracle. -/
structure GrowSt where
  grid : Grid
  cells : List Point
  k : Nat
  deriving Repr

/-- The cell examined in one grow iteration: cells[rand.Intn(len(cells))]. -/
def pickedCell (o : Nat → Nat) (s : GrowSt) : Point :=
  s.cells.getD (o s.k % s.cells.length) ⟨0, 0⟩

/-- growStep models one iteration of the grow loop body: pick a random active
cell, collect its carvable directions, either carve two cells toward a random
carvable direction and append the new cell, or drop the front of the slice. -/
def growStep (o : Nat → Nat) (region : Region) (s : GrowSt) : GrowSt :=
  if s.cells.isEmpty then s
  else
    let cell := pickedCell o s
    let unmade := Dirs.filter (fun d => canCarve s.grid cell d)
    if unmade.isEmpty then ⟨s.grid, s.cells.tail, s.k + 1⟩
    else
      let dir := unmade.getD (o (s.k + 1) % unmade.length) ⟨0, 0⟩
      let g1 := ((s.grid.setMatD (cell + dir) Carved).setRegD (cell + dir) region)
      let g2 := ((g1.setMatD ((cell + dir) + dir) Carved).setRegD ((cell + dir) + dir) region)
      ⟨g2, s.cells ++ [(cell + dir) + dir], s.k + 2⟩

/-- Number of Rock cells in the material slice. -/
def rockCount (gr : Grid) : Nat := gr.g.countP (fun m => decide (m = Rock))

/-- Termination measure of the grow loop: each iteration either carves at least
one Rock cell while appending one active cell, or drops one active cell. -/
def measureSt (s : GrowSt) : Nat := 2 * rockCount s.grid + s.cells.length

/-- Fuelled run of the grow loop; growRun with fuel at least the measure of the
state reaches the empty active slice, which is the termination of the Go loop. -/
def growRun (o : Nat → Nat) (region : Region) : Nat → GrowSt → GrowSt
  | 0, s => s
  | fuel + 1, s => if s.cells.isEmpty then s else growRun o region fuel (growStep o region s)

/-- grow models the Go grow function: run the loop from the singleton active
slice until it empties; the fuel equals the initial measure, which suffices. -/
def grow (o : Nat → Nat) (gr : Grid) (frm : Point) (region : Region) (k : Nat) : Grid × Nat :=
  let s := growRun o region (measureSt ⟨gr, [frm], k⟩) ⟨gr, [frm], k⟩
  (s.grid, s.k)

/-- The points at which growMaze calls grow, in the order of the two nested
loops: y from 1 by 2 below height, x from 1 by 2 below width. -/
def seedPoints (size : Point) : List Point :=
  (intRange2 1 size.y).flatMap (fun y => (intRange2 1 size.x).map (fun x => ⟨x, y⟩))

/-- One growMaze iteration: run grow at the seed and record the seed together
with the material it had at the moment grow was called. -/
def mazeFold (o : Nat → Nat) (region : Region)
    (st : Grid × Nat × List (Point × Material)) (p : Point) :
    Grid × Nat × List (Point × Material) :=
  let gk := grow o st.1 p region st.2.1
  (gk.1, gk.2, st.2.2 ++ [(p, st.1.atD p)])

/-- growMazeAux models the Go growMaze: allocate one region, then run grow at
every seed point, threading the grid; the trace records each call site. -/
def growMazeAux (o : Nat → Nat) (gr : Grid) : Grid × Nat × List (Point × Material) :=
  let rg := gr.NewRegion
  (seedPoints gr.Size).foldl (mazeFold o rg.1) (rg.2, 0, [])

/-- The grid produced by growMaze. -/
def growMaze (o : Nat → Nat) (gr : Grid) : Grid := (growMazeAux o gr).1

/-- The list of points at which growMaze invoked grow, each with the material
the grid held there at the time of the call. -/
def growMazeTrace (o : Nat → Nat) (gr : Grid) : List (Point × Material) :=
  (growMazeAux o gr).2.2

/-- Modelled from the words of the spec: the lattice points at odd x and odd y
inside the bounds, in row-major order. -/
def specOddRowMajor (size : Point) : List Point :=
  ((intRange 0 size.y).filter (fun v => decide (v % 2 = 1))).flatMap
    (fun y => ((intRange 0 size.x).filter (fun v => decide (v % 2 = 1))).map
      (fun x => ⟨x, y⟩))

/-- ConnSide models the Go conn struct: a direction and a region. -/
structure ConnSide where
  dir : Point
  region : Region
  deriving DecidableEq, Repr

/-- Connector models the Go connector struct. -/
structure Connector where
  a : ConnSide
  b : ConnSide
  loc : Point
  deriving DecidableEq, Repr

/-- connCheck models the body of the direction loop of findConnectors at one
cell and one direction: skip if either flank is Rock, emit when the two
flanking regions differ. -/
def connCheck (gr : Grid) (c d : Point) : Option Connector :=
  let rev := Reverse d
  let pa := c + d
  let pb := c + rev
  let ra := gr.regionAtD pa
  let rb := gr.regionAtD pb
  if gr.atD pa = Rock ∨ gr.atD pb = Rock then none
  else if ra ≠ rb then some ⟨⟨d, ra⟩, ⟨rev, rb⟩, c⟩
  else none

/-- The connectors emitted at one cell: nothing unless the cell is Rock, else
one record per direction that passes connCheck, in direction order. -/
def connsAtCell (gr : Grid) (c : Point) : List Connector :=
  if gr.atD c ≠ Rock then [] else Dirs.filterMap (connCheck gr c)

/-- findConnectors models the Go findConnectors: scan the cells with margin 2
from every border in row-major order. -/
def findConnectors (gr : Grid) : List Connector :=
  (intRange 2 (gr.Size.y - 2)).flatMap (fun y =>
    (intRange 2 (gr.Size.x - 2)).flatMap (fun x => connsAtCell gr ⟨x, y⟩))

/-- The mirror of a connector: the two sides exchanged. -/
def connSwap (cn : Connector) : Connector := ⟨cn.b, cn.a, cn.loc⟩

lemma Point.add_def (p q : Point) : p + q = ⟨p.x + q.x, p.y + q.y⟩ := rfl

lemma Point.mul_def (p : Point) (i : Int) : p.mul i = ⟨p.x * i, p.y * i⟩ := rfl

lemma dirs_cases {d : Point} (hd : d ∈ Dirs) :
    d = DirUp ∨ d = DirRight ∨ d = DirDown ∨ d = DirLeft := by
  simpa [Dirs] using hd

lemma Reverse_mem_Dirs {d : Point} (hd : d ∈ Dirs) : Reverse d ∈ Dirs := by
  rcases dirs_cases hd with rfl | rfl | rfl | rfl <;> decide

lemma Reverse_Reverse (d : Point) : Reverse (Reverse d) = d := by
  cases d
  simp only [Reverse, Point.mul_def, Point.mk.injEq]
  omega

lemma mem_intRange {v lo hi : Int} : v ∈ intRange lo hi ↔ lo ≤ v ∧ v < hi := by
  simp only [intRange, List.mem_map, List.mem_range]
  constructor
  · rintro ⟨i, h1, rfl⟩
    omega
  · rintro ⟨h1, h2⟩
    exact ⟨(v - lo).toNat, by omega, by omega⟩

lemma pIn_BoundsR (gr : Grid) (p : Point) (hx : 0 ≤ gr.Size.x) (hy : 0 ≤ gr.Size.y) :
    pIn p gr.BoundsR = true ↔ inBoundsP gr p := by
  simp only [pIn, Grid.BoundsR, mkRect, inBoundsP, Bool.and_eq_true, decide_eq_true_eq]
  rw [min_eq_left hx, min_eq_left hy, max_eq_right hx, max_eq_right hy]
  tauto

lemma idx_bounds {gr : Grid} {p : Point} (h : inBoundsP gr p) :
    0 ≤ gr.idx p ∧ gr.idx p < gr.Size.x * gr.Size.y := by
  obtain ⟨h1, h2, h3, h4⟩ := h
  unfold Grid.idx
  constructor
  · have := mul_nonneg h3 (le_trans h1 (le_of_lt h2))
    omega
  · have e1 : (p.y + 1) * gr.Size.x = p.y * gr.Size.x + gr.Size.x := by ring
    have e2 : (p.y + 1) * gr.Size.x ≤ gr.Size.y * gr.Size.x :=
      mul_le_mul_of_nonneg_right (by omega) (by omega)
    have e3 : gr.Size.y * gr.Size.x = gr.Size.x * gr.Size.y := mul_comm _ _
    omega

lemma idxNat_lt_glen {gr : Grid} {p : Point} (hwf : WF gr) (hin : inBoundsP gr p) :
    (gr.idx p).toNat < gr.g.length := by
  obtain ⟨h0, h1⟩ := idx_bounds hin
  have := hwf.2.2.1
  omega

lemma idxNat_lt_rlen {gr : Grid} {p : Point} (hwf : WF gr) (hin : inBoundsP gr p) :
    (gr.idx p).toNat < gr.regions.length := by
  obtain ⟨h0, h1⟩ := idx_bounds hin
  have := hwf.2.2.2
  omega

lemma At_eq_getD {gr : Grid} {p : Point} (hwf : WF gr) (hin : inBoundsP gr p) :
    gr.At p = some (gr.g.getD (gr.idx p).toNat Rock) := by
  have h0 := (idx_bounds hin).1
  have hlt := idxNat_lt_glen hwf hin
  rw [Grid.At, if_pos h0, List.getElem?_eq_getElem hlt, List.getD_eq_getElem _ _ hlt]

lemma atD_eq_getD {gr : Grid} {p : Point} (hwf : WF gr) (hin : inBoundsP gr p) :
    gr.atD p = gr.g.getD (gr.idx p).toNat Rock := by
  rw [Grid.atD, At_eq_getD hwf hin, Option.getD_some]

lemma At_eq_some_atD {gr : Grid} {p : Point} (hwf : WF gr) (hin : inBoundsP gr p) :
    gr.At p = some (gr.atD p) := by
  rw [At_eq_getD hwf hin, atD_eq_getD hwf hin]

lemma RegionAt_eq_getD {gr : Grid} {p : Point} (hwf : WF gr) (hin : inBoundsP gr p) :
    gr.RegionAt p = some (gr.regions.getD (gr.idx p).toNat 0) := by
  have h0 := (idx_bounds hin).1
  have hlt := idxNat_lt_rlen hwf hin
  rw [Grid.RegionAt, if_pos h0, List.getElem?_eq_getElem hlt, List.getD_eq_getElem _ _ hlt]

lemma regionAtD_eq_getD {gr : Grid} {p : Point} (hwf : WF gr) (hin : inBoundsP gr p) :
    gr.regionAtD p = gr.regions.getD (gr.idx p).toNat 0 := by
  rw [Grid.regionAtD, RegionAt_eq_getD hwf hin, Option.getD_some]

@[simp]
lemma setMatD_Size (gr : Grid) (p : Point) (m : Material) :
    (gr.setMatD p m).Size = gr.Size := rfl

@[simp]
lemma setRegD_Size (gr : Grid) (p : Point) (r : Region) :
    (gr.setRegD p r).Size = gr.Size := rfl

@[simp]
lemma setRegD_g (gr : Grid) (p : Point) (r : Region) :
    (gr.setRegD p r).g = gr.g := rfl

lemma WF_setMatD {gr : Grid} (hwf : WF gr) (p : Point) (m : Material) :
    WF (gr.setMatD p m) := by
  obtain ⟨h1, h2, h3, h4⟩ := hwf
  exact ⟨h1, h2, by simpa [Grid.setMatD], by simpa [Grid.setMatD]⟩

lemma WF_setRegD {gr : Grid} (hwf : WF gr) (p : Point) (r : Region) :
    WF (gr.setRegD p r) := by
  obtain ⟨h1, h2, h3, h4⟩ := hwf
  exact ⟨h1, h2, by simpa [Grid.setRegD], by simpa [Grid.setRegD]⟩

lemma rock_decrease (l : List Material) (i1 i2 : Nat)
    (h1 : i1 < l.length) (h2 : i2 < l.length) (hr : l[i2] = Rock) :
    ((l.set i1 Carved).set i2 Carved).countP (fun m => decide (m = Rock)) <
      l.countP (fun m => decide (m = Rock)) := by
  have hpos : 0 < l.countP (fun m => decide (m = Rock)) := by
    rw [List.countP_pos_iff]
    exact ⟨l[i2], List.getElem_mem h2, by simp [hr]⟩
  have e1 : (if decide True = true then 1 else 0) = 1 := rfl
  have e2 : (if decide (Carved = Rock) = true then 1 else 0) = 0 := rfl
  by_cases he : i1 = i2
  · subst he
    rw [List.set_set, List.countP_set _ _ _ _ h2]
    simp only [hr, e1, e2]
    omega
  · have h2s : i2 < (l.set i1 Carved).length := by simpa using h2
    rw [List.countP_set _ _ _ _ h2s, List.getElem_set_ne he h2s,
      List.countP_set _ _ _ _ h1]
    simp only [hr, e1, e2]
    split <;> omega

lemma isEmpty_false_of_ne_nil {α : Type} {l : List α} (h : l ≠ []) : l.isEmpty = false := by
  cases l with
  | nil => exact absurd rfl h
  | cons a t => rfl

lemma pickedCell_mem (o : Nat → Nat) (s : GrowSt) (hne : s.cells ≠ []) :
    pickedCell o s ∈ s.cells := by
  have hlen : 0 < s.cells.length := List.length_pos.mpr hne
  have hlt : o s.k % s.cells.length < s.cells.length := Nat.mod_lt _ hlen
  rw [pickedCell, List.getD_eq_getElem _ _ hlt]
  exact List.getElem_mem hlt

lemma canCarve_true {gr : Grid} {c d : Point} (hwf : WF gr) (h : canCarve gr c d = true) :
    inBoundsP gr (((c + d) + d) + d) ∧ gr.atD ((c + d) + d) = Rock := by
  rw [canCarve, Bool.and_eq_true] at h
  obtain ⟨hb, hrk⟩ := h
  exact ⟨(pIn_BoundsR gr _ hwf.1 hwf.2.1).mp hb, of_decide_eq_true hrk⟩

lemma mid_next_inBounds {gr : Grid} {c d : Point} (hd : d ∈ Dirs) (hc : inBoundsP gr c)
    (h3 : inBoundsP gr (((c + d) + d) + d)) :
    inBoundsP gr (c + d) ∧ inBoundsP gr ((c + d) + d) := by
  rcases dirs_cases hd with rfl | rfl | rfl | rfl <;>
    · simp only [Point.add_def, DirUp, DirRight, DirDown, DirLeft, inBoundsP] at *
      omega

lemma inBounds_congr {gr1 gr2 : Grid} (h : gr1.Size = gr2.Size) (p : Point) :
    inBoundsP gr1 p ↔ inBoundsP gr2 p := by
  rw [inBoundsP, inBoundsP, h]

lemma growStep_good (o : Nat → Nat) (region : Region) (s : GrowSt)
    (hwf : WF s.grid) (hcells : ∀ p ∈ s.cells, inBoundsP s.grid p) (hne : s.cells ≠ []) :
    WF (growStep o region s).grid ∧
      (∀ p ∈ (growStep o region s).cells, inBoundsP (growStep o region s).grid p) ∧
      measureSt (growStep o region s) < measureSt s := by
  have hlen : 0 < s.cells.length := List.length_pos.mpr hne
  have hie : s.cells.isEmpty = false := isEmpty_false_of_ne_nil hne
  have hcmem := pickedCell_mem o s hne
  have hcin := hcells _ hcmem
  by_cases hu : (Dirs.filter (fun d => canCarve s.grid (pickedCell o s) d)).isEmpty = true
  · have hstep : growStep o region s = ⟨s.grid, s.cells.tail, s.k + 1⟩ := by
      simp only [growStep, hie, Bool.false_eq_true, if_false, hu, if_true]
    rw [hstep]
    refine ⟨hwf, ?_, ?_⟩
    · intro p hp
      exact hcells p (List.mem_of_mem_tail hp)
    · simp only [measureSt, List.length_tail]
      omega
  · rw [Bool.not_eq_true] at hu
    set unm := Dirs.filter (fun d => canCarve s.grid (pickedCell o s) d) with hunm
    set dir := unm.getD (o (s.k + 1) % unm.length) ⟨0, 0⟩ with hdir
    set cell := pickedCell o s with hcelldef
    set mid := cell + dir with hmiddef
    set nxt := (cell + dir) + dir with hnxtdef
    have hstep : growStep o region s =
        ⟨((s.grid.setMatD mid Carved).setRegD mid region).setMatD nxt Carved |>.setRegD nxt region,
          s.cells ++ [nxt], s.k + 2⟩ := by
      simp only [growStep, hie, Bool.false_eq_true, if_false, hu]
    have hulen : 0 < unm.length := by
      rw [List.length_pos]
      intro hnil
      rw [hnil] at hu
      exact absurd hu (by simp)
    have hdmem : dir ∈ unm := by
      rw [hdir, List.getD_eq_getElem _ _ (Nat.mod_lt _ hulen)]
      exact List.getElem_mem _
    rw [hunm, List.mem_filter] at hdmem
    obtain ⟨hdd, hcc⟩ := hdmem
    obtain ⟨h3, hrk⟩ := canCarve_true hwf hcc
    obtain ⟨hmid, hnxt⟩ := mid_next_inBounds hdd hcin h3
    set g2 := ((s.grid.setMatD mid Carved).setRegD mid region).setMatD nxt Carved |>.setRegD nxt region with hg2def
    have hwf2 : WF g2 :=
      WF_setRegD (WF_setMatD (WF_setRegD (WF_setMatD hwf mid Carved) mid region) nxt Carved) nxt region
    have hsz : g2.Size = s.grid.Size := rfl
    have hg2g : g2.g =
        (s.grid.g.set (s.grid.idx mid).toNat Carved).set (s.grid.idx nxt).toNat Carved := rfl
    have hrock : rockCount g2 < rockCount s.grid := by
      rw [rockCount, rockCount, hg2g]
      refine rock_decrease _ _ _ (idxNat_lt_glen hwf hmid) (idxNat_lt_glen hwf hnxt) ?_
      rw [← List.getD_eq_getElem _ Rock (idxNat_lt_glen hwf hnxt), ← atD_eq_getD hwf hnxt]
      exact hrk
    rw [hstep]
    refine ⟨hwf2, ?_, ?_⟩
    · intro p hp
      rw [List.mem_append] at hp
      rcases hp with hp | hp
      · exact (inBounds_congr hsz p).mpr (hcells p hp)
      · rw [List.mem_singleton] at hp
        rw [hp]
        exact (inBounds_congr hsz nxt).mpr hnxt
    · simp only [measureSt, List.length_append, List.length_singleton]
      omega

lemma growRun_reaches_empty (o : Nat → Nat) (region : Region) :
    ∀ (fuel : Nat) (s : GrowSt), WF s.grid → (∀ p ∈ s.cells, inBoundsP s.grid p) →
      measureSt s ≤ fuel → (growRun o region fuel s).cells = [] := by
  intro fuel
  induction fuel with
  | zero =>
    intro s hwf hcells hm
    rw [measureSt] at hm
    show s.cells = []
    rw [← List.length_eq_zero]
    omega
  | succ n ih =>
    intro s hwf hcells hm
    by_cases hne : s.cells = []
    · simp [growRun, hne]
    · have hg := growStep_good o region s hwf hcells hne
      simp only [growRun, isEmpty_false_of_ne_nil hne, Bool.false_eq_true, if_false]
      exact ih _ hg.1 hg.2.1 (by have := hg.2.2; omega)

lemma mazeFold_trace (o : Nat → Nat) (region : Region) :
    ∀ (seeds : List Point) (st : Grid × Nat × List (Point × Material)),
      ((seeds.foldl (mazeFold o region) st).2.2).map Prod.fst =
        (st.2.2).map Prod.fst ++ seeds := by
  intro seeds
  induction seeds with
  | nil => intro st; simp
  | cons p rest ih =>
    intro st
    rw [List.foldl_cons, ih]
    simp [mazeFold]

lemma filter_odd_range (m : Nat) :
    (List.range m).filter (fun i => decide (i % 2 = 1)) =
      (List.range (m / 2)).map (fun i => 2 * i + 1) := by
  induction m with
  | zero => simp
  | succ n ih =>
    rw [List.range_succ, List.filter_append, ih]
    by_cases hodd : n % 2 = 1
    · have hb : (decide (n % 2 = 1)) = true := decide_eq_true hodd
      have h2 : (n + 1) / 2 = n / 2 + 1 := by omega
      rw [h2, List.range_succ, List.map_append]
      simp only [List.filter_cons, hb, if_true, List.filter_nil, List.map_cons, List.map_nil]
      congr 2
      omega
    · have hb : (decide (n % 2 = 1)) = false := decide_eq_false hodd
      have h2 : (n + 1) / 2 = n / 2 := by omega
      rw [h2]
      simp [List.filter_cons, hb]

lemma intRange2_one (n : Int) :
    intRange2 1 n = (intRange 0 n).filter (fun v => decide (v % 2 = 1)) := by
  rw [intRange, intRange2, List.filter_map]
  have hp : ((fun v => decide (v % 2 = 1)) ∘ (fun (i : Nat) => (0 : Int) + (i : Int))) =
      fun (i : Nat) => decide (i % 2 = 1) := by
    funext i
    simp only [Function.comp]
    rw [decide_eq_decide]
    omega
  rw [hp, filter_odd_range, List.map_map]
  have hcnt : (((n : Int) - 1).toNat + 1) / 2 = (n - 0).toNat / 2 := by omega
  rw [hcnt]
  apply List.map_congr_left
  intro a ha
  simp only [Function.comp]
  push_cast
  ring

lemma seedPoints_eq_spec (size : Point) : seedPoints size = specOddRowMajor size := by
  rw [seedPoints, specOddRowMajor, intRange2_one, intRange2_one]

lemma rOverlaps_iff (r s : Rect) :
    rOverlaps r s = true ↔ (rEmpty r = false ∧ rEmpty s = false ∧
      r.min.x < s.max.x ∧ s.min.x < r.max.x ∧ r.min.y < s.max.y ∧ s.min.y < r.max.y) := by
  rw [rOverlaps]
  simp [Bool.and_eq_true, Bool.not_eq_true', and_assoc]

lemma rOverlaps_symm_false {r s : Rect} (h : rOverlaps r s = false) :
    rOverlaps s r = false := by
  rw [← Bool.not_eq_true] at h ⊢
  intro hc
  apply h
  rw [rOverlaps_iff] at hc ⊢
  tauto

/-- The three conditions every accepted room satisfies: containment in the
clip, odd width, odd height. -/
def RoomOk (clip : Rect) (r : Rect) : Prop :=
  rIn r clip = true ∧ Odd (r.max.x - r.min.x) ∧ Odd (r.max.y - r.min.y)

lemma mkRect_dims_odd (x0 y0 w h : Int) (hw : Odd w) (hh : Odd h) :
    Odd ((mkRect x0 y0 (x0 + w) (y0 + h)).max.x - (mkRect x0 y0 (x0 + w) (y0 + h)).min.x) ∧
      Odd ((mkRect x0 y0 (x0 + w) (y0 + h)).max.y - (mkRect x0 y0 (x0 + w) (y0 + h)).min.y) := by
  obtain ⟨a, ha⟩ := hw
  obtain ⟨b, hb⟩ := hh
  rw [mkRect]
  constructor
  · show Odd (max x0 (x0 + w) - min x0 (x0 + w))
    rcases le_total x0 (x0 + w) with h | h
    · rw [min_eq_left h, max_eq_right h]
      exact ⟨a, by omega⟩
    · rw [min_eq_right h, max_eq_left h]
      exact ⟨-a - 1, by omega⟩
  · show Odd (max y0 (y0 + h) - min y0 (y0 + h))
    rcases le_total y0 (y0 + h) with h | h
    · rw [min_eq_left h, max_eq_right h]
      exact ⟨b, by omega⟩
    · rw [min_eq_right h, max_eq_left h]
      exact ⟨-b - 1, by omega⟩

lemma tryRoom_odd (rp : RoomParams) (d : Draw) (hx : Odd rp.Min.x) (hy : Odd rp.Min.y) :
    Odd ((tryRoom rp d).max.x - (tryRoom rp d).min.x) ∧
      Odd ((tryRoom rp d).max.y - (tryRoom rp d).min.y) := by
  rw [tryRoom]
  apply mkRect_dims_odd
  · obtain ⟨a, ha⟩ := hx
    exact ⟨(d.rw : Int) + a, by rw [drawnWidth]; omega⟩
  · obtain ⟨b, hb⟩ := hy
    exact ⟨(d.rh : Int) + b, by rw [drawnHeight]; omega⟩

lemma roomStep_inv (clip : Rect) (rp : RoomParams) (hx : Odd rp.Min.x) (hy : Odd rp.Min.y)
    (rooms : List Rect) (d : Draw) (t : List Rect)
    (hshape : rooms = zeroRect :: t)
    (hok : ∀ r ∈ t, RoomOk clip r)
    (hpw : rooms.Pairwise (fun a b => rOverlaps a b = false)) :
    ∃ t2, roomStep clip rp rooms d = zeroRect :: t2 ∧ (∀ r ∈ t2, RoomOk clip r) ∧
      (roomStep clip rp rooms d).Pairwise (fun a b => rOverlaps a b = false) := by
  simp only [roomStep]
  by_cases h1 : rIn (tryRoom rp d) clip = true
  · rw [if_pos h1]
    by_cases h2 : rooms.all (fun old => !rOverlaps (tryRoom rp d) old) = true
    · rw [if_pos h2]
      refine ⟨t ++ [tryRoom rp d], by rw [hshape]; simp, ?_, ?_⟩
      · intro r hr
        rw [List.mem_append] at hr
        rcases hr with hr | hr
        · exact hok r hr
        · rw [List.mem_singleton] at hr
          rw [hr]
          exact ⟨h1, tryRoom_odd rp d hx hy⟩
      · rw [List.pairwise_append]
        refine ⟨hpw, List.pairwise_singleton _ _, ?_⟩
        intro a ha b hb
        rw [List.mem_singleton] at hb
        rw [hb]
        rw [List.all_eq_true] at h2
        have h4 := h2 a ha
        rw [Bool.not_eq_true'] at h4
        exact rOverlaps_symm_false h4
    · rw [if_neg h2]
      exact ⟨t, hshape, hok, hpw⟩
  · rw [if_neg h1]
    exact ⟨t, hshape, hok, hpw⟩

lemma createRooms_inv (clip : Rect) (rp : RoomParams) (hx : Odd rp.Min.x)
    (hy : Odd rp.Min.y) :
    ∀ (draws : List Draw) (rooms t : List Rect), rooms = zeroRect :: t →
      (∀ r ∈ t, RoomOk clip r) →
      rooms.Pairwise (fun a b => rOverlaps a b = false) →
      ∃ t2, draws.foldl (roomStep clip rp) rooms = zeroRect :: t2 ∧
        (∀ r ∈ t2, RoomOk clip r) ∧
        (draws.foldl (roomStep clip rp) rooms).Pairwise (fun a b => rOverlaps a b = false) := by
  intro draws
  induction draws with
  | nil =>
    intro rooms t hs hok hpw
    exact ⟨t, hs, hok, by rw [List.foldl_nil]; exact hpw⟩
  | cons d rest ih =>
    intro rooms t hs hok hpw
    obtain ⟨t2, h1, h2, h3⟩ := roomStep_inv clip rp hx hy rooms d t hs hok hpw
    rw [List.foldl_cons]
    exact ih (roomStep clip rp rooms d) t2 h1 h2 h3

lemma connCheck_some {gr : Grid} {c d : Point} {cn : Connector}
    (h : connCheck gr c d = some cn) :
    cn = ⟨⟨d, gr.regionAtD (c + d)⟩, ⟨Reverse d, gr.regionAtD (c + Reverse d)⟩, c⟩ ∧
      gr.atD (c + d) ≠ Rock ∧ gr.atD (c + Reverse d) ≠ Rock ∧
      gr.regionAtD (c + d) ≠ gr.regionAtD (c + Reverse d) := by
  simp only [connCheck] at h
  by_cases h1 : gr.atD (c + d) = Rock ∨ gr.atD (c + Reverse d) = Rock
  · rw [if_pos h1] at h
    exact absurd h (by simp)
  · rw [if_neg h1] at h
    by_cases h2 : gr.regionAtD (c + d) ≠ gr.regionAtD (c + Reverse d)
    · rw [if_pos h2, Option.some.injEq] at h
      push_neg at h1
      exact ⟨h.symm, h1.1, h1.2, h2⟩
    · rw [if_neg h2] at h
      exact absurd h (by simp)

lemma connCheck_rev (gr : Grid) (c d : Point) :
    connCheck gr c (Reverse d) = (connCheck gr c d).map connSwap := by
  simp only [connCheck, Reverse_Reverse]
  by_cases h1 : gr.atD (c + d) = Rock
  · rw [if_pos (Or.inr h1), if_pos (Or.inl h1)]
    rfl
  · by_cases h2 : gr.atD (c + Reverse d) = Rock
    · rw [if_pos (Or.inl h2), if_pos (Or.inr h2)]
      rfl
    · rw [if_neg (show ¬(gr.atD (c + Reverse d) = Rock ∨ gr.atD (c + d) = Rock) by tauto),
        if_neg (show ¬(gr.atD (c + d) = Rock ∨ gr.atD (c + Reverse d) = Rock) by tauto)]
      by_cases h3 : gr.regionAtD (c + d) = gr.regionAtD (c + Reverse d)
      · rw [if_neg (show ¬gr.regionAtD (c + Reverse d) ≠ gr.regionAtD (c + d) by simp [h3]),
          if_neg (show ¬gr.regionAtD (c + d) ≠ gr.regionAtD (c + Reverse d) by simp [h3])]
        rfl
      · rw [if_pos (show gr.regionAtD (c + Reverse d) ≠ gr.regionAtD (c + d) from
            fun he => h3 he.symm),
          if_pos h3]
        rfl

lemma connsAtCell_swap {gr : Grid} {c : Point} {cn : Connector}
    (h : cn ∈ connsAtCell gr c) : connSwap cn ∈ connsAtCell gr c := by
  rw [connsAtCell] at h ⊢
  by_cases hrock : gr.atD c ≠ Rock
  · rw [if_pos hrock] at h
    exact absurd h (List.not_mem_nil _)
  · rw [if_neg hrock] at h ⊢
    rw [List.mem_filterMap] at h ⊢
    obtain ⟨d, hd, hcc⟩ := h
    refine ⟨Reverse d, Reverse_mem_Dirs hd, ?_⟩
    rw [connCheck_rev, hcc]
    rfl

lemma connsAtCell_len (gr : Grid) (c : Point) :
    (connsAtCell gr c).length = 0 ∨ (connsAtCell gr c).length = 2 ∨
      (connsAtCell gr c).length = 4 := by
  rw [connsAtCell]
  by_cases hrock : gr.atD c ≠ Rock
  · rw [if_pos hrock]
    left
    rfl
  · rw [if_neg hrock]
    have hdn : connCheck gr c DirDown = (connCheck gr c DirUp).map connSwap := by
      have he : DirDown = Reverse DirUp := by decide
      rw [he, connCheck_rev]
    have hlf : connCheck gr c DirLeft = (connCheck gr c DirRight).map connSwap := by
      have he : DirLeft = Reverse DirRight := by decide
      rw [he, connCheck_rev]
    rw [Dirs]
    cases hu : connCheck gr c DirUp <;> cases hr : connCheck gr c DirRight <;>
      simp [List.filterMap_cons, hu, hr, hdn, hlf]

/-- Concrete 3 by 3 grid whose center odd lattice cell is already Carved. -/
def gridCenterCarved : Grid :=
  ⟨[Rock, Rock, Rock, Rock, Carved, Rock, Rock, Rock, Rock], ⟨3, 3⟩,
    List.replicate 9 0, 0⟩

/-- Concrete 5 by 5 grid whose only Carved cell, of region 7, is at x 0, y 1. -/
def gridAlias : Grid :=
  ⟨(List.range 25).map (fun i => if i = 5 then Carved else Rock), ⟨5, 5⟩,
    (List.range 25).map (fun i => if i = 5 then 7 else 0), 7⟩

/-- Concrete 7 by 7 grid with one Carved cell of region 1 at x 2, y 3 and one
Carved cell of region 2 at x 4, y 3; all other cells Rock with region 0. -/
def gridTwoRooms : Grid :=
  ⟨(List.range 49).map (fun i => if i = 23 ∨ i = 25 then Carved else Rock), ⟨7, 7⟩,
    (List.range 49).map (fun i => if i = 23 then 1 else if i = 25 then 2 else 0), 2⟩

/-- The first connector that findConnectors yields on gridTwoRooms. -/
def connTwoRooms : Connector := ⟨⟨DirRight, 2⟩, ⟨DirLeft, 1⟩, ⟨3, 3⟩⟩

/-- C1: the claim says that after N NewRegion calls Regions yields the ordered
sequence 1..N.  The code builds 0..N-1 instead: evaluated at the failing input
of a single NewRegion call on a fresh grid, the allocated id is 1 yet the
Regions loop returns the list holding 0, not the list holding 1. -/
theorem c1_regions_zero_based :
    (newGrid ⟨3, 3⟩).NewRegion.1 = 1 ∧
      (newGrid ⟨3, 3⟩).NewRegion.2.RegionsList = [0] ∧
      (newGrid ⟨3, 3⟩).NewRegion.2.RegionsList ≠ [1] := by
  decide

/-- C2 counterexample: growMaze seeds a growth pass at the odd lattice point
x 1, y 1 even though that cell is already Carved, so a pass is seeded at an
already-Carved lattice point, contrary to the claim. -/
theorem c2_seeded_at_carved_cex :
    ((⟨1, 1⟩ : Point), Carved) ∈ growMazeTrace (fun _ => 0) gridCenterCarved := by
  decide

/-- C2 amended: growMaze iterates over the odd lattice points in row-major
order and runs one growth pass at every one of them, with no check of the
material there. -/
theorem c2_growMaze_visits_all_odd (o : Nat → Nat) (gr : Grid) :
    (growMazeTrace o gr).map Prod.fst = specOddRowMajor gr.Size := by
  simp only [growMazeTrace, growMazeAux]
  rw [mazeFold_trace]
  rw [List.map_nil, List.nil_append, seedPoints_eq_spec]

/-- C3 counterexample: with the parameters of the source (Min 5, Max 15), the
draw value 6 lies inside the rand.Intn range, whose bound is Max.x tdiv 2 = 7,
yet the drawn width is 17, which exceeds Max.x = 15. -/
theorem c3_width_exceeds_max_cex :
    (6 : Int) < Int.tdiv ROOM_PARAMS.Max.x 2 ∧
      drawnWidth ROOM_PARAMS ⟨0, 0, 0, 6⟩ = 17 ∧
      ¬ drawnWidth ROOM_PARAMS ⟨0, 0, 0, 6⟩ ≤ ROOM_PARAMS.Max.x := by
  decide

/-- C3 amended: for every draw allowed by rand.Intn, the drawn width lies in
the interval from Min.x to Min.x + 2*(Max.x tdiv 2) - 2, and the drawn height
lies in the interval from Min.y to Min.y + 2*(Max.y tdiv 2) - 2; the upper
ends can exceed Max. -/
theorem c3_drawn_dims_bounds (rp : RoomParams) (d : Draw)
    (hw : (d.rw : Int) < Int.tdiv rp.Max.x 2) (hh : (d.rh : Int) < Int.tdiv rp.Max.y 2) :
    (rp.Min.x ≤ drawnWidth rp d ∧
      drawnWidth rp d ≤ rp.Min.x + 2 * Int.tdiv rp.Max.x 2 - 2) ∧
    (rp.Min.y ≤ drawnHeight rp d ∧
      drawnHeight rp d ≤ rp.Min.y + 2 * Int.tdiv rp.Max.y 2 - 2) := by
  rw [drawnWidth, drawnHeight]
  generalize Int.tdiv rp.Max.x 2 = qx at hw ⊢
  generalize Int.tdiv rp.Max.y 2 = qy at hh ⊢
  omega

/-- Witness for the amended C3 bounds at the concrete parameters and draws. -/
theorem c3_drawn_dims_bounds_witness :
    (ROOM_PARAMS.Min.x ≤ drawnWidth ROOM_PARAMS ⟨0, 0, 0, 0⟩ ∧
      drawnWidth ROOM_PARAMS ⟨0, 0, 0, 0⟩ ≤
        ROOM_PARAMS.Min.x + 2 * Int.tdiv ROOM_PARAMS.Max.x 2 - 2) ∧
    (ROOM_PARAMS.Min.y ≤ drawnHeight ROOM_PARAMS ⟨0, 0, 0, 0⟩ ∧
      drawnHeight ROOM_PARAMS ⟨0, 0, 0, 0⟩ ≤
        ROOM_PARAMS.Min.y + 2 * Int.tdiv ROOM_PARAMS.Max.y 2 - 2) :=
  c3_drawn_dims_bounds ROOM_PARAMS ⟨0, 0, 0, 0⟩ (by decide) (by decide)

/-- C4 counterexample: the list createRooms returns always starts with the
zero rectangle that seeds it, whose width 0 is not odd, so not every rectangle
in the returned list has odd dimensions. -/
theorem c4_zero_rect_in_output_cex :
    zeroRect ∈ createRooms (mkRect 0 0 61 61) ROOM_PARAMS [] ∧
      ¬ Odd (zeroRect.max.x - zeroRect.min.x) := by
  decide

/-- C4 amended: every rectangle in the returned list other than the leading
zero-rectangle placeholder lies inside the clip and, when both minimum
dimensions are odd, has odd width and odd height; the whole returned list is
pairwise non-overlapping. -/
theorem c4_rooms_valid (clip : Rect) (rp : RoomParams) (draws : List Draw)
    (hx : Odd rp.Min.x) (hy : Odd rp.Min.y) :
    (∀ r ∈ (createRooms clip rp draws).tail,
      rIn r clip = true ∧ Odd (r.max.x - r.min.x) ∧ Odd (r.max.y - r.min.y)) ∧
    (createRooms clip rp draws).Pairwise (fun a b => rOverlaps a b = false) := by
  obtain ⟨t2, h1, h2, h3⟩ := createRooms_inv clip rp hx hy draws [zeroRect] [] rfl
    (by intro r hr; exact absurd hr (List.not_mem_nil r)) (List.pairwise_singleton _ _)
  constructor
  · intro r hr
    rw [createRooms, h1, List.tail_cons] at hr
    exact h2 r hr
  · rw [createRooms]
    exact h3

/-- Witness for the amended C4 statement on one concrete run that accepts one
room. -/
theorem c4_rooms_valid_witness :
    (rIn (mkRect 1 1 6 6) (mkRect 0 0 61 61) = true ∧
      Odd ((mkRect 1 1 6 6).max.x - (mkRect 1 1 6 6).min.x) ∧
      Odd ((mkRect 1 1 6 6).max.y - (mkRect 1 1 6 6).min.y)) ∧
    (createRooms (mkRect 0 0 61 61) ROOM_PARAMS [⟨0, 0, 0, 0⟩]).Pairwise
      (fun a b => rOverlaps a b = false) :=
  ⟨(c4_rooms_valid (mkRect 0 0 61 61) ROOM_PARAMS [⟨0, 0, 0, 0⟩] (by decide) (by decide)).1
      (mkRect 1 1 6 6) (by decide),
    (c4_rooms_valid (mkRect 0 0 61 61) ROOM_PARAMS [⟨0, 0, 0, 0⟩] (by decide) (by decide)).2⟩

/-- C5 counterexample: the point at x 5, y 0 is outside the 5 by 5 bounds, yet
its linear index 5 lands inside the slices, so At and RegionAt return the
material and region of the different in-bounds cell at x 0, y 1 instead of
failing, and SetMaterial and SetRegion likewise write that cell. -/
theorem c5_silent_alias_cex :
    ¬ inBoundsP gridAlias ⟨5, 0⟩ ∧
      gridAlias.At ⟨5, 0⟩ = some Carved ∧
      gridAlias.At ⟨5, 0⟩ = some (gridAlias.atD ⟨0, 1⟩) ∧
      gridAlias.RegionAt ⟨5, 0⟩ = some 7 ∧
      gridAlias.RegionAt ⟨5, 0⟩ = some (gridAlias.regionAtD ⟨0, 1⟩) ∧
      inBoundsP gridAlias ⟨0, 1⟩ ∧
      gridAlias.SetMaterial ⟨5, 0⟩ Rock = some (gridAlias.setMatD ⟨0, 1⟩ Rock) ∧
      gridAlias.SetRegion ⟨5, 0⟩ 3 = some (gridAlias.setRegD ⟨0, 1⟩ 3) := by
  decide

/-- C5 amended: a call of At, RegionAt, SetMaterial or SetRegion at a point
outside bounds fails only when its linear index y*width+x falls outside the
slice; when the linear index is in range each of the four calls silently reads
or writes the different in-bounds cell at the wrapped coordinates. -/
theorem c5_oob_access (gr : Grid) (p : Point) (m : Material) (r : Region)
    (hwf : WF gr) (hw : 0 < gr.Size.x) (hout : ¬ inBoundsP gr p) :
    ((gr.idx p < 0 ∨ gr.Size.x * gr.Size.y ≤ gr.idx p) →
      gr.At p = none ∧ gr.RegionAt p = none ∧
      gr.SetMaterial p m = none ∧ gr.SetRegion p r = none) ∧
    (0 ≤ gr.idx p → gr.idx p < gr.Size.x * gr.Size.y →
      inBoundsP gr (wrapPoint gr p) ∧ wrapPoint gr p ≠ p ∧
      gr.At p = some (gr.atD (wrapPoint gr p)) ∧
      gr.RegionAt p = some (gr.regionAtD (wrapPoint gr p)) ∧
      gr.SetMaterial p m = some (gr.setMatD (wrapPoint gr p) m) ∧
      gr.SetRegion p r = some (gr.setRegD (wrapPoint gr p) r)) := by
  obtain ⟨hsx, hsy, hlg, hlr⟩ := hwf
  constructor
  · intro hcase
    rcases hcase with hneg | hge
    · rw [Grid.At, if_neg (by omega), Grid.RegionAt, if_neg (by omega),
        Grid.SetMaterial, if_neg (by omega), Grid.SetRegion, if_neg (by omega)]
      exact ⟨rfl, rfl, rfl, rfl⟩
    · have hprod : 0 ≤ gr.Size.x * gr.Size.y := mul_nonneg hsx hsy
      refine ⟨?_, ?_, ?_, ?_⟩
      · rw [Grid.At, if_pos (by omega)]
        apply List.getElem?_eq_none
        omega
      · rw [Grid.RegionAt, if_pos (by omega)]
        apply List.getElem?_eq_none
        omega
      · rw [Grid.SetMaterial, if_neg (by intro hc; omega)]
      · rw [Grid.SetRegion, if_neg (by intro hc; omega)]
  · intro h0 hlt
    have hx0 : 0 ≤ gr.idx p % gr.Size.x := Int.emod_nonneg _ (by omega)
    have hx1 : gr.idx p % gr.Size.x < gr.Size.x := Int.emod_lt_of_pos _ hw
    have hy0 : 0 ≤ gr.idx p / gr.Size.x := Int.ediv_nonneg h0 (by omega)
    have he := Int.ediv_add_emod (gr.idx p) gr.Size.x
    have hy1 : gr.idx p / gr.Size.x < gr.Size.y := by
      have h2 : gr.Size.x * (gr.idx p / gr.Size.x) < gr.Size.x * gr.Size.y := by omega
      exact lt_of_mul_lt_mul_left h2 (by omega)
    have hinw : inBoundsP gr (wrapPoint gr p) := ⟨hx0, hx1, hy0, hy1⟩
    have hidx : gr.idx (wrapPoint gr p) = gr.idx p := by
      simp only [wrapPoint, Grid.idx]
      rw [mul_comm]
      exact he
    have hne : wrapPoint gr p ≠ p := by
      intro heq
      apply hout
      rw [← heq]
      exact hinw
    have hlt2 : (gr.idx p).toNat < gr.g.length := by omega
    have hlt3 : (gr.idx p).toNat < gr.regions.length := by omega
    refine ⟨hinw, hne, ?_, ?_, ?_, ?_⟩
    · rw [Grid.At, if_pos h0, List.getElem?_eq_getElem hlt2,
        atD_eq_getD ⟨hsx, hsy, hlg, hlr⟩ hinw]
      simp only [hidx]
      rw [List.getD_eq_getElem _ _ hlt2]
    · rw [Grid.RegionAt, if_pos h0, List.getElem?_eq_getElem hlt3,
        regionAtD_eq_getD ⟨hsx, hsy, hlg, hlr⟩ hinw]
      simp only [hidx]
      rw [List.getD_eq_getElem _ _ hlt3]
    · rw [Grid.SetMaterial, if_pos ⟨h0, hlt2⟩, Grid.setMatD]
      simp only [hidx]
    · rw [Grid.SetRegion, if_pos ⟨h0, hlt3⟩, Grid.setRegD]
      simp only [hidx]

/-- Witness for the amended C5 statement at a concrete out-of-bounds point
whose linear index lands inside the slices: all four accessors silently hit
the aliased in-bounds cell. -/
theorem c5_oob_access_witness :
    inBoundsP gridAlias (wrapPoint gridAlias ⟨5, 0⟩) ∧
      wrapPoint gridAlias ⟨5, 0⟩ ≠ ⟨5, 0⟩ ∧
      gridAlias.At ⟨5, 0⟩ = some (gridAlias.atD (wrapPoint gridAlias ⟨5, 0⟩)) ∧
      gridAlias.RegionAt ⟨5, 0⟩ = some (gridAlias.regionAtD (wrapPoint gridAlias ⟨5, 0⟩)) ∧
      gridAlias.SetMaterial ⟨5, 0⟩ Carved =
        some (gridAlias.setMatD (wrapPoint gridAlias ⟨5, 0⟩) Carved) ∧
      gridAlias.SetRegion ⟨5, 0⟩ 3 =
        some (gridAlias.setRegD (wrapPoint gridAlias ⟨5, 0⟩) 3) :=
  (c5_oob_access gridAlias ⟨5, 0⟩ Carved 3 (by decide) (by decide) (by decide)).2
    (by decide) (by decide)

/-- C6: for a well-formed grid, a cell inside bounds and one of the four
directions, canCarve never panics and returns true exactly when the point
three steps out is inside bounds and the point two steps out is Rock. -/
theorem c6_canCarve_correct (gr : Grid) (c d : Point) (hwf : WF gr)
    (hc : inBoundsP gr c) (hd : d ∈ Dirs) :
    canCarveChecked gr c d = some (canCarve gr c d) ∧
    (canCarve gr c d = true ↔
      (inBoundsP gr (c + d.mul 3) ∧ gr.atD (c + d.mul 2) = Rock)) := by
  have h3 : c + d.mul 3 = ((c + d) + d) + d := by
    cases c; cases d
    simp only [Point.add_def, Point.mul_def, Point.mk.injEq]
    omega
  have h2 : c + d.mul 2 = (c + d) + d := by
    cases c; cases d
    simp only [Point.add_def, Point.mul_def, Point.mk.injEq]
    omega
  constructor
  · rw [canCarveChecked, canCarve]
    by_cases hb : pIn (((c + d) + d) + d) gr.BoundsR = true
    · rw [if_pos hb, hb, Bool.true_and]
      have hin3 : inBoundsP gr (((c + d) + d) + d) :=
        (pIn_BoundsR gr _ hwf.1 hwf.2.1).mp hb
      have hnxt : inBoundsP gr ((c + d) + d) := (mid_next_inBounds hd hc hin3).2
      rw [At_eq_some_atD hwf hnxt]
      rfl
    · rw [if_neg hb]
      rw [Bool.not_eq_true] at hb
      rw [hb, Bool.false_and]
  · rw [canCarve, Bool.and_eq_true, decide_eq_true_eq, h3, h2,
      pIn_BoundsR gr _ hwf.1 hwf.2.1]

/-- Witness for C6 at a concrete grid, cell, and direction. -/
theorem c6_canCarve_correct_witness :
    canCarveChecked (newGrid ⟨5, 5⟩) ⟨1, 1⟩ DirRight =
      some (canCarve (newGrid ⟨5, 5⟩) ⟨1, 1⟩ DirRight) ∧
    (canCarve (newGrid ⟨5, 5⟩) ⟨1, 1⟩ DirRight = true ↔
      (inBoundsP (newGrid ⟨5, 5⟩) ((⟨1, 1⟩ : Point) + DirRight.mul 3) ∧
        (newGrid ⟨5, 5⟩).atD ((⟨1, 1⟩ : Point) + DirRight.mul 2) = Rock)) :=
  c6_canCarve_correct (newGrid ⟨5, 5⟩) ⟨1, 1⟩ DirRight (by decide) (by decide) (by decide)

/-- C7: every connector found has Rock at its location, a location with margin
2 from every border, a second side direction that reverses the first, two
non-Rock flanking cells, and two differing recorded region ids. -/
theorem c7_connector_sound (gr : Grid) (cn : Connector)
    (h : cn ∈ findConnectors gr) :
    gr.atD cn.loc = Rock ∧
    (2 ≤ cn.loc.x ∧ cn.loc.x ≤ gr.Size.x - 3 ∧
      2 ≤ cn.loc.y ∧ cn.loc.y ≤ gr.Size.y - 3) ∧
    cn.b.dir = Reverse cn.a.dir ∧
    gr.atD (cn.loc + cn.a.dir) ≠ Rock ∧ gr.atD (cn.loc + cn.b.dir) ≠ Rock ∧
    cn.a.region ≠ cn.b.region := by
  rw [findConnectors, List.mem_flatMap] at h
  obtain ⟨y, hy, h2⟩ := h
  rw [List.mem_flatMap] at h2
  obtain ⟨x, hx, h3⟩ := h2
  rw [mem_intRange] at hy hx
  rw [connsAtCell] at h3
  by_cases hrock : gr.atD ⟨x, y⟩ ≠ Rock
  · rw [if_pos hrock] at h3
    exact absurd h3 (List.not_mem_nil cn)
  · rw [if_neg hrock] at h3
    push_neg at hrock
    rw [List.mem_filterMap] at h3
    obtain ⟨d, hd, hcc⟩ := h3
    obtain ⟨hcn, hfa, hfb, hra⟩ := connCheck_some hcc
    subst hcn
    refine ⟨hrock, ?_, rfl, hfa, hfb, hra⟩
    show 2 ≤ x ∧ x ≤ gr.Size.x - 3 ∧ 2 ≤ y ∧ y ≤ gr.Size.y - 3
    omega

/-- Witness for C7 at a concrete grid and connector. -/
theorem c7_connector_sound_witness :
    gridTwoRooms.atD connTwoRooms.loc = Rock ∧
    (2 ≤ connTwoRooms.loc.x ∧ connTwoRooms.loc.x ≤ gridTwoRooms.Size.x - 3 ∧
      2 ≤ connTwoRooms.loc.y ∧ connTwoRooms.loc.y ≤ gridTwoRooms.Size.y - 3) ∧
    connTwoRooms.b.dir = Reverse connTwoRooms.a.dir ∧
    gridTwoRooms.atD (connTwoRooms.loc + connTwoRooms.a.dir) ≠ Rock ∧
    gridTwoRooms.atD (connTwoRooms.loc + connTwoRooms.b.dir) ≠ Rock ∧
    connTwoRooms.a.region ≠ connTwoRooms.b.region :=
  c7_connector_sound gridTwoRooms connTwoRooms (by decide)

/-- C8: for every well-formed grid, start point inside bounds, region and
oracle of random choices, the grow loop reaches the empty active collection
within its initial measure of steps: every iteration either carves a Rock cell
or drops one active cell, so the loop terminates. -/
theorem c8_grow_terminates (gr : Grid) (start : Point) (region : Region)
    (o : Nat → Nat) (hwf : WF gr) (hin : inBoundsP gr start) :
    (growRun o region (measureSt ⟨gr, [start], 0⟩) ⟨gr, [start], 0⟩).cells = [] := by
  apply growRun_reaches_empty o region _ _ hwf _ le_rfl
  intro p hp
  rw [List.mem_singleton] at hp
  rw [hp]
  exact hin

/-- Witness for C8 at a concrete grid, start point, and oracle. -/
theorem c8_grow_terminates_witness :
    (growRun (fun _ => 0) 1 (measureSt ⟨newGrid ⟨3, 3⟩, [⟨1, 1⟩], 0⟩)
      ⟨newGrid ⟨3, 3⟩, [⟨1, 1⟩], 0⟩).cells = [] :=
  c8_grow_terminates (newGrid ⟨3, 3⟩) ⟨1, 1⟩ 1 (fun _ => 0) (by decide) (by decide)

/-- C9: in a dead-end iteration of the grow loop, exactly one cell is removed
from the active collection, it is the front cell, the oldest one, and not
necessarily the examined cell; the grid is left unchanged. -/
theorem c9_deadend_removes_front (o : Nat → Nat) (region : Region) (s : GrowSt)
    (hne : s.cells ≠ [])
    (hdead : Dirs.filter (fun d => canCarve s.grid (pickedCell o s) d) = []) :
    (growStep o region s).grid = s.grid ∧
    (growStep o region s).cells = s.cells.tail ∧
    (growStep o region s).cells.length + 1 = s.cells.length := by
  have hstep : growStep o region s = ⟨s.grid, s.cells.tail, s.k + 1⟩ := by
    simp only [growStep, isEmpty_false_of_ne_nil hne, Bool.false_eq_true, if_false, hdead,
      List.isEmpty_nil, if_true]
  rw [hstep]
  refine ⟨rfl, rfl, ?_⟩
  show s.cells.tail.length + 1 = s.cells.length
  rw [List.length_tail]
  have := List.length_pos.mpr hne
  omega

/-- Witness for C9: the oracle picks the second cell, which is a dead end, and
the front cell, not the examined one, is removed. -/
theorem c9_deadend_removes_front_witness :
    (growStep (fun _ => 1) 5 ⟨newGrid ⟨3, 3⟩, [⟨0, 0⟩, ⟨1, 1⟩], 0⟩).grid =
      (⟨newGrid ⟨3, 3⟩, [⟨0, 0⟩, ⟨1, 1⟩], 0⟩ : GrowSt).grid ∧
    (growStep (fun _ => 1) 5 ⟨newGrid ⟨3, 3⟩, [⟨0, 0⟩, ⟨1, 1⟩], 0⟩).cells =
      (⟨newGrid ⟨3, 3⟩, [⟨0, 0⟩, ⟨1, 1⟩], 0⟩ : GrowSt).cells.tail ∧
    (growStep (fun _ => 1) 5 ⟨newGrid ⟨3, 3⟩, [⟨0, 0⟩, ⟨1, 1⟩], 0⟩).cells.length + 1 =
      (⟨newGrid ⟨3, 3⟩, [⟨0, 0⟩, ⟨1, 1⟩], 0⟩ : GrowSt).cells.length :=
  c9_deadend_removes_front (fun _ => 1) 5 ⟨newGrid ⟨3, 3⟩, [⟨0, 0⟩, ⟨1, 1⟩], 0⟩
    (by decide) (by decide)

/-- C10: the connector list is closed under swapping the two sides, which
reverses the direction, and every cell contributes 0, 2 or 4 records. -/
theorem c10_mirror_closed (gr : Grid) (cn : Connector) (p : Point)
    (h : cn ∈ findConnectors gr) :
    connSwap cn ∈ findConnectors gr ∧
    ((connsAtCell gr p).length = 0 ∨ (connsAtCell gr p).length = 2 ∨
      (connsAtCell gr p).length = 4) := by
  refine ⟨?_, connsAtCell_len gr p⟩
  rw [findConnectors, List.mem_flatMap] at h ⊢
  obtain ⟨y, hy, h2⟩ := h
  rw [List.mem_flatMap] at h2
  obtain ⟨x, hx, h3⟩ := h2
  exact ⟨y, hy, List.mem_flatMap.mpr ⟨x, hx, connsAtCell_swap h3⟩⟩

/-- Witness for C10 at a concrete grid and connector. -/
theorem c10_mirror_closed_witness :
    connSwap connTwoRooms ∈ findConnectors gridTwoRooms ∧
    ((connsAtCell gridTwoRooms ⟨3, 3⟩).length = 0 ∨
      (connsAtCell gridTwoRooms ⟨3, 3⟩).length = 2 ∨
      (connsAtCell gridTwoRooms ⟨3, 3⟩).length = 4) :=
  c10_mirror_closed gridTwoRooms connTwoRooms ⟨3, 3⟩ (by decide)

end Maze
